import Mathlib

/-!
Shallow embedding of the streaming core of `src/ws.rs` (Polymarket CLOB
WebSocket price monitor).

Modelling conventions:
* JSON values (`serde_json::Value`) are the inductive `Json`; `Value::get`,
  `Value::as_str`, `Value::as_array` become `Json.get`, `Json.as_str`,
  `Json.as_array`.
* `f64` prices are modelled as exact rationals (`ℚ`).  `str.parse::<f64>()`
  becomes `parseDecimal`, which accepts finite decimal literals with an
  optional sign, fractional part and exponent; Rust's display formatting
  `{v:.2}` becomes `fmt2`, rounding to the nearest hundredth.
* The mutable `HashMap<String, f64>` ask state is an association list
  `AskState` with `insertAsk` (overwrite) and `askLookup`; the
  `HashMap<String, String>` name table is `Names` with `lookupName`
  (last binding wins, as with `collect()` from an iterator).
* `println!` output of the message handlers is reified: the single line
  printed by `print_price_change` becomes a `Line` record holding exactly
  the interpolated fields of the format string, and diagnostics become
  `Output` values.
* The serde parse step inside `handle_message` is external library code, so
  the handler takes the parse result as `Option Json` alongside the raw text.
* The receive loop of `connect_and_stream` consumes a list of `Frame`s
  (inbound frames in arrival order, a transport read error included);
  outbound pong payloads are collected.  `tokio::time::sleep` is represented
  by the constant `reconnect_delay_secs`; sends are assumed to succeed.
-/

set_option autoImplicit false

/-- JSON values as inspected by the handlers in `ws.rs`. -/
inductive Json where
  | null
  | bool (b : Bool)
  | num (q : ℚ)
  | str (s : String)
  | arr (elems : List Json)
  | obj (fields : List (String × Json))

/-- Key lookup in a JSON object's field list (first binding wins, as keys of
a parsed JSON object are unique). -/
def lookupField : List (String × Json) → String → Option Json
  | [], _ => none
  | (k', v) :: t, k => if k' = k then some v else lookupField t k

/-- Rust `Value::get(key)`: field access on objects, `None` otherwise. -/
def Json.get (j : Json) (k : String) : Option Json :=
  match j with
  | .obj fields => lookupField fields k
  | _ => none

/-- Rust `Value::as_str`. -/
def Json.as_str : Json → Option String
  | .str s => some s
  | _ => none

/-- Rust `Value::as_array`. -/
def Json.as_array : Json → Option (List Json)
  | .arr xs => some xs
  | _ => none

/-- Numeric value of a digit string (most significant digit first). -/
def digitsVal (cs : List Char) : ℕ :=
  cs.foldl (fun a c => a * 10 + (c.toNat - 48)) 0

/-- Parses a nonempty all-digit character list. -/
def parseNatDigits (cs : List Char) : Option ℕ :=
  if cs ≠ [] ∧ cs.all Char.isDigit then some (digitsVal cs) else none

/-- Parses an unsigned decimal mantissa: digits with an optional dot, at
least one digit overall (`"12"`, `"1.5"`, `"1."`, `".5"`). -/
def parseUnsignedDec (cs : List Char) : Option ℚ :=
  match cs.span (fun c => c != '.') with
  | (ip, []) => (parseNatDigits ip).map (fun n => (n : ℚ))
  | (ip, _ :: fp) =>
    if ip ++ fp ≠ [] ∧ ip.all Char.isDigit ∧ fp.all Char.isDigit then
      some ((digitsVal ip : ℚ) + (digitsVal fp : ℚ) / (10 : ℚ) ^ fp.length)
    else none

/-- Parses an optionally signed decimal exponent. -/
def parseExponent (cs : List Char) : Option ℤ :=
  match cs with
  | '-' :: t => (parseNatDigits t).map (fun n => -(n : ℤ))
  | '+' :: t => (parseNatDigits t).map (fun n => (n : ℤ))
  | t => (parseNatDigits t).map (fun n => (n : ℤ))

/-- Rust `str::parse::<f64>()` restricted to finite decimal literals,
returning the exact rational value: optional sign, mantissa, optional
`e`/`E` exponent.  Non-numeric strings parse to `none`. -/
def parseDecimal (s : String) : Option ℚ :=
  let signed : Bool × List Char :=
    match s.toList with
    | '-' :: t => (true, t)
    | '+' :: t => (false, t)
    | t => (false, t)
  match signed.2.span (fun c => c != 'e' && c != 'E') with
  | (mantissa, rest) =>
    let e : Option ℤ :=
      match rest with
      | [] => some 0
      | _ :: ex => parseExponent ex
    match parseUnsignedDec mantissa, e with
    | some m, some k =>
      let v := m * (10 : ℚ) ^ k
      some (if signed.1 then -v else v)
    | _, _ => none

/-- Rust `format!("{v:.2}")` on the rational model of an `f64`: the value
rounded to the nearest hundredth, printed with exactly two fractional
digits. -/
def fmt2 (q : ℚ) : String :=
  let n : ℤ := round (q * 100)
  let m : ℕ := n.natAbs
  let frac : ℕ := m % 100
  (if n < 0 then "-" else "") ++ toString (m / 100) ++ "." ++
    (if frac < 10 then "0" else "") ++ toString frac

/-- The Ask-State Store `HashMap<String, f64>` as an association list. -/
abbrev AskState := List (String × ℚ)

/-- Rust `HashMap::insert`: overwrite the binding if the key is present,
otherwise add it. -/
def insertAsk : AskState → String → ℚ → AskState
  | [], k, v => [(k, v)]
  | (k', v') :: t, k, v =>
    if k' = k then (k, v) :: t else (k', v') :: insertAsk t k v

/-- Rust `HashMap::get` on the Ask-State Store. -/
def askLookup : AskState → String → Option ℚ
  | [], _ => none
  | (k', v) :: t, k => if k' = k then some v else askLookup t k

/-- The token-id-to-display-name table built in `connect_and_stream`. -/
abbrev Names := List (String × String)

/-- Rust `HashMap::get` on the name table built by `collect()`; with duplicate
ids the last binding wins, as for repeated `HashMap::insert`. -/
def lookupName : Names → String → Option String
  | [], _ => none
  | (k, v) :: t, k' =>
    match lookupName t k' with
    | some r => some r
    | none => if k = k' then some v else none

/-- The single line printed by `print_price_change`, holding exactly the
interpolated fields of its format string. -/
structure Line where
  side_a : String
  name_a : String
  ask_a_str : String
  side_b : String
  name_b : String
  ask_b_str : String
  sum_str : String
  size_label : String
  arb_flag : String
deriving DecidableEq, Repr

/-- Console output of the message-handling code, one value per `println!`. -/
inductive Output where
  | line (l : Line)
  | unparseable (raw : String)
  | unhandled (eventType : String)
  | serverClosed
deriving DecidableEq, Repr

/-- Extraction of a change record's asset id,
`change.get("asset_id").and_then(Value::as_str).unwrap_or("")`. -/
def idOf (change : Json) : String :=
  ((change.get "asset_id").bind Json.as_str).getD ""

/-- Extraction of a change record's best ask,
`change.get("best_ask").and_then(Value::as_str).and_then(parse)`. -/
def askOf (change : Json) : Option ℚ :=
  ((change.get "best_ask").bind Json.as_str).bind parseDecimal

/-- The state-update loop of `print_price_change`: for every change record
whose `best_ask` parses, insert it under the record's id (the id defaults to
`""` when absent or not a string — the `if let (id, Some(ask))` pattern in
the source is irrefutable in its first component). -/
def updateAskState (ask_state : AskState) (changes : List Json) : AskState :=
  changes.foldl (fun st change =>
    match askOf change with
    | some ask => insertAsk st (idOf change) ask
    | none => st) ask_state

/-- Function `print_price_change` from `ws.rs`: updates the ask state from every
record, then, when the message has at least two records, renders the paired
line from the first two records and the post-update state. -/
def print_price_change (msg : Json) (names : Names) (ask_state : AskState) :
    AskState × Option Line :=
  match (msg.get "price_changes").bind Json.as_array with
  | none => (ask_state, none)
  | some changes =>
    let st := updateAskState ask_state changes
    if changes.length < 2 then (st, none) else
    let a := changes.getD 0 Json.null
    let b := changes.getD 1 Json.null
    let id_a := idOf a
    let id_b := idOf b
    let name_a := (lookupName names id_a).getD "Token A"
    let name_b := (lookupName names id_b).getD "Token B"
    let side_a := ((a.get "side").bind Json.as_str).getD "?"
    let side_b := ((b.get "side").bind Json.as_str).getD "?"
    let size_a := ((a.get "size").bind Json.as_str).getD "?"
    let ask_a := askLookup st id_a
    let ask_b := askLookup st id_b
    let sum := ask_a.bind (fun x => ask_b.map (fun y => x + y))
    let size_label := if size_a = "0" then "CANCEL" else size_a
    let ask_a_str := (ask_a.map fmt2).getD "—"
    let ask_b_str := (ask_b.map fmt2).getD "—"
    let sum_str := (sum.map fmt2).getD "—"
    let arb_flag := (sum.map (fun t => if t < 98 / 100 then " ← ARB" else "")).getD ""
    (st, some ⟨side_a, name_a, ask_a_str, side_b, name_b, ask_b_str,
      sum_str, size_label, arb_flag⟩)

/-- The best-ask extraction chain of `seed_state_from_book`: last element of
`asks` (the book is sorted highest to lowest, so the last entry is the best
ask), its `price` field, parsed as a decimal. -/
def bookBestAsk (msg : Json) : Option ℚ :=
  ((((((msg.get "asks").bind Json.as_array).bind List.getLast?).bind
    (fun l => l.get "price")).bind Json.as_str)).bind parseDecimal

/-- Function `seed_state_from_book` from `ws.rs`: silently seeds the ask state from a
book snapshot; a missing id or a missing/unparseable best ask is a no-op. -/
def seed_state_from_book (msg : Json) (ask_state : AskState) : AskState :=
  match (msg.get "asset_id").bind Json.as_str with
  | none => ask_state
  | some id =>
    match bookBestAsk msg with
    | some ask => insertAsk ask_state id ask
    | none => ask_state

/-- Function `handle_message` from `ws.rs`: routes a text payload by `event_type`.
The serde parse result of `text` is supplied as `parsed` (the JSON text
parser is external library code).  Returns the new ask state and the console
output of the call. -/
def handle_message : String → Option Json → Names → AskState →
    AskState × List Output
  | text, none, _, ask_state => (ask_state, [Output.unparseable text])
  | _, some msg, names, ask_state =>
    match (msg.get "event_type").bind Json.as_str with
    | none => (ask_state, [])
    | some et =>
      if et = "price_change" then
        let r := print_price_change msg names ask_state
        (r.1, (r.2.map Output.line).toList)
      else if et = "book" then
        (seed_state_from_book msg ask_state, [])
      else if et = "last_trade_price" then
        (ask_state, [])
      else
        (ask_state, [Output.unhandled et])

/-- Inbound WebSocket frames as consumed by the receive loop of
`connect_and_stream`, in arrival order.  `text` carries the raw payload and
its serde parse result; `err` is a transport-level read failure (the `msg?`
in the loop); `binaryOrOther` covers the `_ => {}` arm. -/
inductive Frame where
  | text (raw : String) (parsed : Option Json)
  | ping (payload : List ℕ)
  | close
  | binaryOrOther
  | err (e : String)

/-- How the receive loop of `connect_and_stream` ended. -/
inductive ExitKind where
  | ended
  | closed
  | errored
deriving DecidableEq, Repr

/-- Observable result of one run of the receive loop: final ask state,
console output, outbound pong payloads, and how the loop ended. -/
structure StreamResult where
  store : AskState
  outputs : List Output
  pongs : List (List ℕ)
  exit : ExitKind

/-- The receive loop of `connect_and_stream`: text frames go to
`handle_message`, pings are answered with a pong carrying the same payload,
a close frame logs and breaks, a transport error aborts the loop with an
error, anything else is ignored. -/
def streamLoop (names : Names) (s : AskState) : List Frame → StreamResult
  | [] => ⟨s, [], [], ExitKind.ended⟩
  | Frame.text raw p :: rest =>
    let h := handle_message raw p names s
    let r := streamLoop names h.1 rest
    ⟨r.store, h.2 ++ r.outputs, r.pongs, r.exit⟩
  | Frame.ping d :: rest =>
    let r := streamLoop names s rest
    ⟨r.store, r.outputs, d :: r.pongs, r.exit⟩
  | Frame.close :: _ => ⟨s, [Output.serverClosed], [], ExitKind.closed⟩
  | Frame.binaryOrOther :: rest => streamLoop names s rest
  | Frame.err _ :: _ => ⟨s, [], [], ExitKind.errored⟩

/-- Observable result of one `connect_and_stream` call: the token ids of the
subscription message it sends, and the stream result. -/
structure ConnResult where
  subscription : List String
  stream : StreamResult

/-- Function `connect_and_stream` from `ws.rs`: builds the name table from the token
list, subscribes to every token id, and runs the receive loop on a fresh,
empty ask state (`ask_state` is created inside this function). -/
def connect_and_stream (tokens : List (String × String)) (frames : List Frame) :
    ConnResult :=
  ⟨tokens.map Prod.fst, streamLoop tokens [] frames⟩

/-- The fixed reconnect delay of `run`,
`tokio::time::sleep(Duration::from_secs(5))`. -/
def reconnect_delay_secs : ℕ := 5

/-- Function `run` from `ws.rs`: an endless reconnect loop, each iteration calling
`connect_and_stream` with the same token list.  Modelled over the list of
connection sessions actually served, each given by its inbound frames. -/
def run (tokens : List (String × String)) (sessions : List (List Frame)) :
    List ConnResult :=
  sessions.map (connect_and_stream tokens)

/-- The store write performed by the update loop of `print_price_change` for
one change record, if any: records with a parseable `best_ask` write it
under the record's id, other records write nothing. -/
def recordWrite (change : Json) : Option (String × ℚ) :=
  (askOf change).map (fun a => (idOf change, a))

/-- All store writes of one `price_change` update loop, in order. -/
def recordWrites (changes : List Json) : List (String × ℚ) :=
  changes.filterMap recordWrite

/-- Replays a list of writes against a store, left to right. -/
def applyWrites (s : AskState) (ws : List (String × ℚ)) : AskState :=
  ws.foldl (fun st kv => insertAsk st kv.1 kv.2) s

/-- The store write performed by `seed_state_from_book`, if any. -/
def seedWrite (msg : Json) : Option (String × ℚ) :=
  match (msg.get "asset_id").bind Json.as_str with
  | none => none
  | some id => (bookBestAsk msg).map (fun a => (id, a))

/-- All store writes performed by one `handle_message` call, in order. -/
def msgWrites : Option Json → List (String × ℚ)
  | none => []
  | some msg =>
    match (msg.get "event_type").bind Json.as_str with
    | none => []
    | some et =>
      if et = "price_change" then
        match (msg.get "price_changes").bind Json.as_array with
        | some changes => recordWrites changes
        | none => []
      else if et = "book" then (seedWrite msg).toList
      else []

/-- All store writes performed by a sequence of handled messages. -/
def allWrites : List (Option Json) → List (String × ℚ)
  | [] => []
  | m :: rest => msgWrites m ++ allWrites rest

/-- Modelled from the spec: the most recently applied value for a token in a
write sequence (the "most recently applied valid best ask"), if any. -/
def lastApplied : List (String × ℚ) → String → Option ℚ
  | [], _ => none
  | (k, v) :: ws, t =>
    match lastApplied ws t with
    | some u => some u
    | none => if k = t then some v else none

/-- Modelled from the spec: the writes the claim wording of C1 predicts for
a `price_change` update loop — only records that carry both a valid (string)
token id and a parseable `best_ask` write. -/
def validWrites (changes : List Json) : List (String × ℚ) :=
  changes.filterMap (fun change =>
    match (change.get "asset_id").bind Json.as_str, askOf change with
    | some id, some a => some (id, a)
    | _, _ => none)

/-- Processes a sequence of parsed text messages through `handle_message`,
threading the ask state and concatenating the console output. -/
def processMsgs : List (Option Json) → Names → AskState → AskState × List Output
  | [], _, s => (s, [])
  | m :: rest, names, s =>
    let r1 := handle_message "" m names s
    let r2 := processMsgs rest names r1.1
    (r2.1, r1.2 ++ r2.2)

/-- Modelled from the spec: the ping payloads the receive loop should answer
— every ping frame arriving before the loop stops at a close frame or a
transport error. -/
def pingPayloads : List Frame → List (List ℕ)
  | [] => []
  | Frame.ping d :: rest => d :: pingPayloads rest
  | Frame.close :: _ => []
  | Frame.err _ :: _ => []
  | _ :: rest => pingPayloads rest

/-- Example change record: token A, ask 0.52. -/
def exChangeA : Json :=
  Json.obj [("asset_id", Json.str "tokA"), ("side", Json.str "BUY"),
    ("size", Json.str "10"), ("best_ask", Json.str "0.52")]

/-- Example change record: token B, ask 0.44. -/
def exChangeB : Json :=
  Json.obj [("asset_id", Json.str "tokB"), ("side", Json.str "SELL"),
    ("size", Json.str "5"), ("best_ask", Json.str "0.44")]

/-- Example change record: token A, ask 0.55. -/
def exChangeA2 : Json :=
  Json.obj [("asset_id", Json.str "tokA"), ("side", Json.str "SELL"),
    ("size", Json.str "0"), ("best_ask", Json.str "0.55")]

/-- Example change record: token B, ask 0.48. -/
def exChangeB2 : Json :=
  Json.obj [("asset_id", Json.str "tokB"), ("side", Json.str "BUY"),
    ("size", Json.str "3"), ("best_ask", Json.str "0.48")]

/-- Example `price_change` message with asks 0.52 and 0.44 (sum 0.96). -/
def exMsg96 : Json :=
  Json.obj [("event_type", Json.str "price_change"),
    ("price_changes", Json.arr [exChangeA, exChangeB])]

/-- Example `price_change` message with asks 0.55 and 0.48 (sum 1.03). -/
def exMsg103 : Json :=
  Json.obj [("event_type", Json.str "price_change"),
    ("price_changes", Json.arr [exChangeA2, exChangeB2])]

/-- Example `price_change` message with a single record. -/
def exMsgSingle : Json :=
  Json.obj [("event_type", Json.str "price_change"),
    ("price_changes", Json.arr [exChangeA])]

/-- Example `price_change` message whose `price_changes` field is missing. -/
def exMsgNoChanges : Json :=
  Json.obj [("event_type", Json.str "price_change")]

/-- Example change record that carries a parseable `best_ask` but no
`asset_id` at all. -/
def cexChange : Json :=
  Json.obj [("best_ask", Json.str "0.5")]

/-- Example `price_change` message whose only record has no token id. -/
def cexMsg : Json :=
  Json.obj [("event_type", Json.str "price_change"),
    ("price_changes", Json.arr [cexChange])]

/-- Example change record without a `best_ask` field. -/
def exChangeNoAskA : Json :=
  Json.obj [("asset_id", Json.str "tokA"), ("side", Json.str "BUY"),
    ("size", Json.str "7")]

/-- Example change record without a `best_ask` field, token B. -/
def exChangeNoAskB : Json :=
  Json.obj [("asset_id", Json.str "tokB"), ("side", Json.str "SELL"),
    ("size", Json.str "2")]

/-- Example `price_change` message with two records and no asks. -/
def exMsgNoAsks : Json :=
  Json.obj [("event_type", Json.str "price_change"),
    ("price_changes", Json.arr [exChangeNoAskA, exChangeNoAskB])]

/-- Example `book` message for token A with best (last) ask 0.52. -/
def exBook : Json :=
  Json.obj [("event_type", Json.str "book"), ("asset_id", Json.str "tokA"),
    ("asks", Json.arr
      [Json.obj [("price", Json.str "0.60"), ("size", Json.str "1")],
       Json.obj [("price", Json.str "0.52"), ("size", Json.str "2")]])]

/-- Example token list handed to `run`. -/
def exTokens : List (String × String) := [("tokA", "Fuego"), ("tokB", "AB3")]

theorem askLookup_insertAsk (s : AskState) (k t : String) (v : ℚ) :
    askLookup (insertAsk s k v) t = if t = k then some v else askLookup s t := by
  induction s with
  | nil => simp [insertAsk, askLookup, eq_comm]
  | cons p s ih =>
    obtain ⟨k', v'⟩ := p
    by_cases hk : k' = k
    · subst hk
      simp only [insertAsk, if_pos rfl, askLookup]
      by_cases ht : t = k'
      · simp [ht]
      · simp [ht, show ¬ k' = t from fun h => ht h.symm]
    · simp only [insertAsk, if_neg hk, askLookup, ih]
      by_cases ht : k' = t
      · have htk : ¬ t = k := fun h => hk (ht.trans h)
        simp [ht, htk]
      · simp [ht]

theorem updateAskState_eq (changes : List Json) (s : AskState) :
    updateAskState s changes = applyWrites s (recordWrites changes) := by
  induction changes generalizing s with
  | nil => rfl
  | cons c t ih =>
    have h1 : updateAskState s (c :: t) =
        updateAskState (match askOf c with
          | some ask => insertAsk s (idOf c) ask
          | none => s) t := rfl
    rw [h1]
    cases h : askOf c with
    | none =>
      simp only [recordWrites, List.filterMap_cons, recordWrite, h, Option.map_none']
      exact ih s
    | some a =>
      simp only [recordWrites, List.filterMap_cons, recordWrite, h, Option.map_some']
      exact ih _

theorem askLookup_applyWrites (ws : List (String × ℚ)) (s : AskState) (t : String) :
    askLookup (applyWrites s ws) t =
      match lastApplied ws t with
      | some v => some v
      | none => askLookup s t := by
  induction ws generalizing s with
  | nil => rfl
  | cons kv ws ih =>
    obtain ⟨k, v⟩ := kv
    have h1 : applyWrites s ((k, v) :: ws) = applyWrites (insertAsk s k v) ws := rfl
    rw [h1, ih]
    cases h : lastApplied ws t with
    | some u => simp [lastApplied, h]
    | none =>
      simp only [lastApplied, h, askLookup_insertAsk]
      by_cases ht : t = k
      · simp [ht]
      · simp [ht, show ¬ k = t from fun h => ht h.symm]

theorem applyWrites_nil (s : AskState) : applyWrites s [] = s := rfl

theorem applyWrites_append (s : AskState) (w1 w2 : List (String × ℚ)) :
    applyWrites s (w1 ++ w2) = applyWrites (applyWrites s w1) w2 := by
  simp [applyWrites, List.foldl_append]

theorem print_price_change_none (msg : Json) (names : Names) (s : AskState)
    (hc : (msg.get "price_changes").bind Json.as_array = none) :
    print_price_change msg names s = (s, none) := by
  unfold print_price_change
  rw [hc]

theorem print_price_change_fst (msg : Json) (names : Names) (s : AskState)
    (c : List Json)
    (hc : (msg.get "price_changes").bind Json.as_array = some c) :
    (print_price_change msg names s).1 = applyWrites s (recordWrites c) := by
  unfold print_price_change
  rw [hc]
  by_cases h2 : c.length < 2
  · simp [h2, updateAskState_eq]
  · simp [h2, updateAskState_eq]

theorem print_price_change_snd_short (msg : Json) (names : Names) (s : AskState)
    (c : List Json)
    (hc : (msg.get "price_changes").bind Json.as_array = some c)
    (h2 : c.length < 2) :
    (print_price_change msg names s).2 = none := by
  unfold print_price_change
  rw [hc]
  simp [h2]

theorem print_price_change_snd (msg : Json) (names : Names) (s : AskState)
    (c : List Json)
    (hc : (msg.get "price_changes").bind Json.as_array = some c)
    (h2 : ¬ c.length < 2) :
    (print_price_change msg names s).2 = some
      { side_a := (((c.getD 0 Json.null).get "side").bind Json.as_str).getD "?"
        name_a := (lookupName names (idOf (c.getD 0 Json.null))).getD "Token A"
        ask_a_str := ((askLookup (applyWrites s (recordWrites c))
          (idOf (c.getD 0 Json.null))).map fmt2).getD "—"
        side_b := (((c.getD 1 Json.null).get "side").bind Json.as_str).getD "?"
        name_b := (lookupName names (idOf (c.getD 1 Json.null))).getD "Token B"
        ask_b_str := ((askLookup (applyWrites s (recordWrites c))
          (idOf (c.getD 1 Json.null))).map fmt2).getD "—"
        sum_str := (((askLookup (applyWrites s (recordWrites c))
            (idOf (c.getD 0 Json.null))).bind (fun x =>
          (askLookup (applyWrites s (recordWrites c))
            (idOf (c.getD 1 Json.null))).map (fun y => x + y))).map fmt2).getD "—"
        size_label :=
          if (((c.getD 0 Json.null).get "size").bind Json.as_str).getD "?" = "0"
          then "CANCEL"
          else (((c.getD 0 Json.null).get "size").bind Json.as_str).getD "?"
        arb_flag := (((askLookup (applyWrites s (recordWrites c))
            (idOf (c.getD 0 Json.null))).bind (fun x =>
          (askLookup (applyWrites s (recordWrites c))
            (idOf (c.getD 1 Json.null))).map (fun y => x + y))).map
          (fun t => if t < 98 / 100 then " ← ARB" else "")).getD "" } := by
  unfold print_price_change
  rw [hc]
  simp [h2, updateAskState_eq]

theorem seed_state_from_book_eq (msg : Json) (s : AskState) :
    seed_state_from_book msg s = applyWrites s (seedWrite msg).toList := by
  unfold seed_state_from_book seedWrite
  cases hid : (msg.get "asset_id").bind Json.as_str with
  | none => rfl
  | some id =>
    cases hb : bookBestAsk msg with
    | none => rfl
    | some a => rfl

theorem handle_message_book (text : String) (msg : Json) (names : Names)
    (s : AskState)
    (h : (msg.get "event_type").bind Json.as_str = some "book") :
    handle_message text (some msg) names s = (seed_state_from_book msg s, []) := by
  simp only [handle_message]
  rw [h]
  simp

theorem handle_message_pc (text : String) (msg : Json) (names : Names)
    (s : AskState)
    (h : (msg.get "event_type").bind Json.as_str = some "price_change") :
    handle_message text (some msg) names s =
      ((print_price_change msg names s).1,
        ((print_price_change msg names s).2.map Output.line).toList) := by
  simp only [handle_message]
  rw [h]
  simp

theorem msgWrites_pc (msg : Json) (c : List Json)
    (h : (msg.get "event_type").bind Json.as_str = some "price_change")
    (hc : (msg.get "price_changes").bind Json.as_array = some c) :
    msgWrites (some msg) = recordWrites c := by
  simp only [msgWrites]
  rw [h, hc]
  simp

theorem handle_message_fst (text : String) (p : Option Json) (names : Names)
    (s : AskState) :
    (handle_message text p names s).1 = applyWrites s (msgWrites p) := by
  cases p with
  | none => rfl
  | some msg =>
    simp only [handle_message, msgWrites]
    cases he : (msg.get "event_type").bind Json.as_str with
    | none => rfl
    | some et =>
      by_cases hpc : et = "price_change"
      · subst hpc
        simp only [if_pos rfl]
        cases hc : (msg.get "price_changes").bind Json.as_array with
        | none => simp [print_price_change_none msg names s hc, applyWrites_nil]
        | some c => simp [print_price_change_fst msg names s c hc]
      · by_cases hbk : et = "book"
        · subst hbk
          simp [hpc, seed_state_from_book_eq]
        · by_cases hlt : et = "last_trade_price"
          · subst hlt
            simp [hpc, hbk, applyWrites_nil]
          · simp [hpc, hbk, hlt, applyWrites_nil]

theorem processMsgs_fst (msgs : List (Option Json)) (names : Names)
    (s : AskState) :
    (processMsgs msgs names s).1 = applyWrites s (allWrites msgs) := by
  induction msgs generalizing s with
  | nil => rfl
  | cons m rest ih =>
    show (processMsgs rest names (handle_message "" m names s).1).1 = _
    rw [ih, handle_message_fst, allWrites, applyWrites_append]

theorem processMsgs_append (m1 m2 : List (Option Json)) (names : Names)
    (s : AskState) :
    processMsgs (m1 ++ m2) names s =
      ((processMsgs m2 names (processMsgs m1 names s).1).1,
        (processMsgs m1 names s).2 ++
          (processMsgs m2 names (processMsgs m1 names s).1).2) := by
  induction m1 generalizing s with
  | nil => simp [processMsgs]
  | cons m rest ih => simp [processMsgs, ih, List.append_assoc]

theorem allWrites_append (m1 m2 : List (Option Json)) :
    allWrites (m1 ++ m2) = allWrites m1 ++ allWrites m2 := by
  induction m1 with
  | nil => rfl
  | cons m rest ih => simp [allWrites, ih, List.append_assoc]

theorem processMsgs_books_silent (books : List Json) (names : Names)
    (s : AskState)
    (hb : ∀ m ∈ books, (m.get "event_type").bind Json.as_str = some "book") :
    (processMsgs (books.map some) names s).2 = [] := by
  induction books generalizing s with
  | nil => rfl
  | cons m rest ih =>
    have hm := hb m (List.mem_cons_self m rest)
    show ((handle_message "" (some m) names s).2 ++
      (processMsgs (rest.map some) names (handle_message "" (some m) names s).1).2) = []
    rw [handle_message_book "" m names s hm]
    simp only [List.nil_append]
    exact ih _ (fun m' hm' => hb m' (List.mem_cons_of_mem m hm'))

/-- C10: a parsed message whose `event_type` is "price_change" but whose
`price_changes` field is absent or not an array is a complete no-op: the
ask state is unchanged and no output is produced. -/
theorem claim_C10 (text : String) (msg : Json) (names : Names) (s : AskState)
    (hpc : (msg.get "event_type").bind Json.as_str = some "price_change")
    (hc : (msg.get "price_changes").bind Json.as_array = none) :
    handle_message text (some msg) names s = (s, []) := by
  rw [handle_message_pc text msg names s hpc,
    print_price_change_none msg names s hc]
  rfl

/-- Witness for C10 at a concrete `price_change` message without a
`price_changes` field. -/
theorem claim_C10_witness :
    handle_message "" (some exMsgNoChanges) [] [] = ([], []) :=
  claim_C10 "" exMsgNoChanges [] [] rfl rfl

/-- C4: a `price_change` event with fewer than two records performs the
step-1 store writes but renders no line; with two or more records exactly
one line is emitted; in both cases the only state change is the step-1
writes. -/
theorem claim_C4 (text : String) (msg : Json) (names : Names) (s : AskState)
    (c : List Json)
    (hpc : (msg.get "event_type").bind Json.as_str = some "price_change")
    (hc : (msg.get "price_changes").bind Json.as_array = some c) :
    (handle_message text (some msg) names s).1 = applyWrites s (recordWrites c) ∧
    (c.length < 2 → (handle_message text (some msg) names s).2 = []) ∧
    (2 ≤ c.length →
      ∃ l, (handle_message text (some msg) names s).2 = [Output.line l]) := by
  rw [handle_message_pc text msg names s hpc]
  refine ⟨print_price_change_fst msg names s c hc, ?_, ?_⟩
  · intro h2
    rw [print_price_change_snd_short msg names s c hc h2]
    rfl
  · intro h2
    have h2' : ¬ c.length < 2 := by omega
    rw [print_price_change_snd msg names s c hc h2']
    exact ⟨_, rfl⟩

/-- Witness for C4 at a concrete single-record `price_change` message. -/
theorem claim_C4_witness :
    (handle_message "" (some exMsgSingle) [] []).1 =
        applyWrites [] (recordWrites [exChangeA]) ∧
    ([exChangeA].length < 2 →
      (handle_message "" (some exMsgSingle) [] []).2 = []) ∧
    (2 ≤ [exChangeA].length →
      ∃ l, (handle_message "" (some exMsgSingle) [] []).2 = [Output.line l]) :=
  claim_C4 "" exMsgSingle [] [] [exChangeA] rfl rfl

/-- C8: in a rendered `price_change` line, a first record whose `size` field
is the string "0" renders the size as the literal "CANCEL"; any other size
string renders verbatim. -/
theorem claim_C8 (msg : Json) (names : Names) (s : AskState) (c : List Json)
    (sz : String)
    (hc : (msg.get "price_changes").bind Json.as_array = some c)
    (h2 : 2 ≤ c.length)
    (hsz : ((c.getD 0 Json.null).get "size").bind Json.as_str = some sz) :
    ∃ l, (print_price_change msg names s).2 = some l ∧
      l.size_label = if sz = "0" then "CANCEL" else sz := by
  have h2' : ¬ c.length < 2 := by omega
  rw [print_price_change_snd msg names s c hc h2']
  refine ⟨_, rfl, ?_⟩
  rw [hsz]
  rfl

/-- Witness for C8 at a concrete message whose first record has size "0". -/
theorem claim_C8_witness :
    ∃ l, (print_price_change exMsg103 [] []).2 = some l ∧
      l.size_label = if "0" = "0" then "CANCEL" else "0" :=
  claim_C8 exMsg103 [] [] [exChangeA2, exChangeB2] "0" rfl (by decide) rfl

/-- C5: a text frame that does not parse produces a malformed-message
diagnostic, leaves the ask state unchanged, and does not stop the receive
loop — the remaining frames are processed exactly as they would have been
without it. -/
theorem claim_C5 (text : String) (rest : List Frame) (names : Names)
    (s : AskState) :
    streamLoop names s (Frame.text text none :: rest) =
      { store := (streamLoop names s rest).store
        outputs := Output.unparseable text :: (streamLoop names s rest).outputs
        pongs := (streamLoop names s rest).pongs
        exit := (streamLoop names s rest).exit } := by
  rfl

/-- C9: every ping frame received while streaming is answered with a pong
frame carrying the identical payload: the outbound pong payloads are
exactly the payloads of the pings processed before the loop stops. -/
theorem claim_C9 (names : Names) (s : AskState) (frames : List Frame) :
    (streamLoop names s frames).pongs = pingPayloads frames := by
  induction frames generalizing s with
  | nil => rfl
  | cons f rest ih =>
    cases f with
    | text raw p => exact ih ((handle_message raw p names s).1)
    | ping d => exact congrArg (List.cons d) (ih s)
    | close => rfl
    | binaryOrOther => exact ih s
    | err e => rfl

/-- C3: for a `price_change` event with two records whose tokens are both
known in the store after the step-1 update, the rendered sum is the
two-decimal rendering of the arithmetic sum of the two asks, and the
arbitrage marker is present exactly when that sum is strictly below 0.98. -/
theorem claim_C3 (msg : Json) (names : Names) (s : AskState) (c : List Json)
    (qa qb : ℚ)
    (hc : (msg.get "price_changes").bind Json.as_array = some c)
    (h2 : c.length = 2)
    (ha : askLookup (applyWrites s (recordWrites c))
      (idOf (c.getD 0 Json.null)) = some qa)
    (hb : askLookup (applyWrites s (recordWrites c))
      (idOf (c.getD 1 Json.null)) = some qb) :
    ∃ l, (print_price_change msg names s).2 = some l ∧
      l.sum_str = fmt2 (qa + qb) ∧
      (l.arb_flag = " ← ARB" ↔ qa + qb < 98 / 100) := by
  have h2' : ¬ c.length < 2 := by omega
  rw [print_price_change_snd msg names s c hc h2']
  refine ⟨_, rfl, ?_, ?_⟩
  · rw [ha, hb]
    rfl
  · rw [ha, hb]
    show ((if qa + qb < 98 / 100 then " ← ARB" else "") = " ← ARB") ↔
      qa + qb < 98 / 100
    by_cases harb : qa + qb < 98 / 100
    · simp [harb]
    · simp [harb]

/-- Witness for C3 at the two example events of the spec: asks 0.52 and
0.44 sum to 0.96 and carry the marker, asks 0.55 and 0.48 sum to 1.03 and
do not. -/
theorem claim_C3_witness :
    (∃ l, (print_price_change exMsg96 [] []).2 = some l ∧
      l.sum_str = fmt2 ((parseDecimal "0.52").getD 0 + (parseDecimal "0.44").getD 0) ∧
      (l.arb_flag = " ← ARB" ↔
        (parseDecimal "0.52").getD 0 + (parseDecimal "0.44").getD 0 < 98 / 100)) ∧
    (∃ l, (print_price_change exMsg103 [] []).2 = some l ∧
      l.sum_str = fmt2 ((parseDecimal "0.55").getD 0 + (parseDecimal "0.48").getD 0) ∧
      (l.arb_flag = " ← ARB" ↔
        (parseDecimal "0.55").getD 0 + (parseDecimal "0.48").getD 0 < 98 / 100)) ∧
    fmt2 ((parseDecimal "0.52").getD 0 + (parseDecimal "0.44").getD 0) = "0.96" ∧
    ((parseDecimal "0.52").getD 0 + (parseDecimal "0.44").getD 0 < (98 : ℚ) / 100) ∧
    fmt2 ((parseDecimal "0.55").getD 0 + (parseDecimal "0.48").getD 0) = "1.03" ∧
    ¬ ((parseDecimal "0.55").getD 0 + (parseDecimal "0.48").getD 0 < (98 : ℚ) / 100) := by
  have e52 : (parseDecimal "0.52").getD 0 = 13 / 25 := by
    simp [parseDecimal, parseUnsignedDec, parseNatDigits, parseExponent, digitsVal]
    norm_num
  have e44 : (parseDecimal "0.44").getD 0 = 11 / 25 := by
    simp [parseDecimal, parseUnsignedDec, parseNatDigits, parseExponent, digitsVal]
    norm_num
  have e55 : (parseDecimal "0.55").getD 0 = 11 / 20 := by
    simp [parseDecimal, parseUnsignedDec, parseNatDigits, parseExponent, digitsVal]
    norm_num
  have e48 : (parseDecimal "0.48").getD 0 = 12 / 25 := by
    simp [parseDecimal, parseUnsignedDec, parseNatDigits, parseExponent, digitsVal]
    norm_num
  refine ⟨claim_C3 exMsg96 [] [] [exChangeA, exChangeB]
      ((parseDecimal "0.52").getD 0) ((parseDecimal "0.44").getD 0)
      rfl rfl rfl rfl,
    claim_C3 exMsg103 [] [] [exChangeA2, exChangeB2]
      ((parseDecimal "0.55").getD 0) ((parseDecimal "0.48").getD 0)
      rfl rfl rfl rfl, ?_, ?_, ?_, ?_⟩
  · rw [e52, e44]
    norm_num [fmt2, round_eq]
    rfl
  · rw [e52, e44]
    norm_num
  · rw [e55, e48]
    norm_num [fmt2, round_eq]
    rfl
  · rw [e55, e48]
    norm_num

/-- C1 counterexample: the claim predicts that a record without a valid
token id causes no store write, but `print_price_change` stores the
parseable `best_ask` of an id-less record under the empty-string key: on a
one-record message whose record has `best_ask` "0.5" and no `asset_id`, the
resulting store differs from the claim-predicted store. -/
theorem claim_C1_counterexample :
    (print_price_change cexMsg [] []).1 ≠ applyWrites [] (validWrites [cexChange]) := by
  intro h
  exact absurd (congrArg List.length h) (by decide)

/-- C1 (amended): processing a `price_change` writes exactly the records
with a parseable `best_ask`, each stored under its asset-id string — the
empty string when the `asset_id` is missing or not a string; a record
without a parseable `best_ask` causes no store write. -/
theorem claim_C1 (msg : Json) (names : Names) (s : AskState) (c : List Json)
    (hc : (msg.get "price_changes").bind Json.as_array = some c) :
    (print_price_change msg names s).1 = applyWrites s (recordWrites c) ∧
    ∀ change ∈ c, askOf change = none → recordWrite change = none := by
  refine ⟨print_price_change_fst msg names s c hc, ?_⟩
  intro change _ h
  simp [recordWrite, h]

/-- Witness for C1 (amended) at the counterexample message. -/
theorem claim_C1_witness :
    (print_price_change cexMsg [] []).1 =
        applyWrites [] (recordWrites [cexChange]) ∧
    ∀ change ∈ [cexChange], askOf change = none → recordWrite change = none :=
  claim_C1 cexMsg [] [] [cexChange] rfl

/-- C7: for a `book` message carrying a token id, the seeder writes the
parsed price of the last element of the `asks` sequence under that id; an
empty `asks` sequence or a missing/unparseable price is a no-op; and the
book handler produces no user-visible output. -/
theorem claim_C7 (text : String) (msg : Json) (names : Names) (s : AskState)
    (id : String) (xs : List Json)
    (hid : (msg.get "asset_id").bind Json.as_str = some id)
    (hasks : (msg.get "asks").bind Json.as_array = some xs) :
    (∀ lastEl p q, xs.getLast? = some lastEl →
        (lastEl.get "price").bind Json.as_str = some p →
        parseDecimal p = some q →
        seed_state_from_book msg s = insertAsk s id q) ∧
    (xs = [] → seed_state_from_book msg s = s) ∧
    (∀ lastEl, xs.getLast? = some lastEl →
        ((lastEl.get "price").bind Json.as_str).bind parseDecimal = none →
        seed_state_from_book msg s = s) ∧
    ((msg.get "event_type").bind Json.as_str = some "book" →
      (handle_message text (some msg) names s).2 = []) := by
  refine ⟨?_, ?_, ?_, ?_⟩
  · intro lastEl p q hl hp hq
    have hb : bookBestAsk msg = some q := by
      simp [bookBestAsk, hasks, hl, hp, hq]
    unfold seed_state_from_book
    rw [hid, hb]
  · intro hxs
    have hb : bookBestAsk msg = none := by
      simp [bookBestAsk, hasks, hxs]
    unfold seed_state_from_book
    rw [hid, hb]
  · intro lastEl hl hnp
    have hb : bookBestAsk msg = none := by
      simp [bookBestAsk, hasks, hl, hnp]
    unfold seed_state_from_book
    rw [hid, hb]
  · intro hbook
    rw [handle_message_book text msg names s hbook]

/-- Witness for C7 at a concrete `book` snapshot: the price of the last
(best) ask is seeded, and the handler emits nothing. -/
theorem claim_C7_witness :
    seed_state_from_book exBook [] =
        insertAsk [] "tokA" ((parseDecimal "0.52").getD 0) ∧
    (handle_message "" (some exBook) [] []).2 = [] := by
  have h := claim_C7 "" exBook [] [] "tokA"
    [Json.obj [("price", Json.str "0.60"), ("size", Json.str "1")],
     Json.obj [("price", Json.str "0.52"), ("size", Json.str "2")]] rfl rfl
  exact ⟨h.1 (Json.obj [("price", Json.str "0.52"), ("size", Json.str "2")])
      "0.52" ((parseDecimal "0.52").getD 0) rfl rfl rfl,
    h.2.2.2 rfl⟩

/-- C2: after a sequence of `book` messages followed by a `price_change`
whose first record references token `t`, the ask rendered for `t` in the
emitted line is the most recently applied valid `best_ask` for `t` — a
value seeded from a book snapshot counting as applied — and that value is
what the store holds. -/
theorem claim_C2 (books : List Json) (pc : Json) (c : List Json) (t : String)
    (names : Names) (v : ℚ)
    (hb : ∀ m ∈ books, (m.get "event_type").bind Json.as_str = some "book")
    (hpc : (pc.get "event_type").bind Json.as_str = some "price_change")
    (hc : (pc.get "price_changes").bind Json.as_array = some c)
    (h2 : 2 ≤ c.length)
    (ht : idOf (c.getD 0 Json.null) = t)
    (hv : lastApplied (allWrites ((books ++ [pc]).map some)) t = some v) :
    ∃ l, (processMsgs ((books ++ [pc]).map some) names []).2 = [Output.line l] ∧
      l.ask_a_str = fmt2 v ∧
      askLookup (processMsgs ((books ++ [pc]).map some) names []).1 t = some v := by
  have h2' : ¬ c.length < 2 := by omega
  have hmap : (books ++ [pc]).map some = books.map some ++ [some pc] := by simp
  have hW : allWrites ((books ++ [pc]).map some) =
      allWrites (books.map some) ++ recordWrites c := by
    rw [hmap, allWrites_append]
    simp [allWrites, msgWrites_pc pc c hpc hc]
  have hlook : askLookup (processMsgs ((books ++ [pc]).map some) names []).1 t =
      some v := by
    rw [processMsgs_fst, askLookup_applyWrites, hv]
  have hkey : askLookup (applyWrites (processMsgs (books.map some) names []).1
      (recordWrites c)) (idOf (c.getD 0 Json.null)) = some v := by
    rw [ht, processMsgs_fst, ← applyWrites_append, ← hW, askLookup_applyWrites, hv]
  have hout : (processMsgs ((books ++ [pc]).map some) names []).2 =
      ((print_price_change pc names
        (processMsgs (books.map some) names []).1).2.map Output.line).toList := by
    rw [hmap, processMsgs_append]
    show (processMsgs (books.map some) names []).2 ++
      (processMsgs [some pc] names (processMsgs (books.map some) names []).1).2 = _
    rw [processMsgs_books_silent books names [] hb, List.nil_append]
    show (handle_message "" (some pc) names
      (processMsgs (books.map some) names []).1).2 ++ [] = _
    rw [List.append_nil, handle_message_pc _ pc names _ hpc]
  rw [print_price_change_snd pc names _ c hc h2'] at hout
  simp only [Option.map_some', Option.toList_some] at hout
  refine ⟨_, hout, ?_, hlook⟩
  show ((askLookup (applyWrites (processMsgs (books.map some) names []).1
    (recordWrites c)) (idOf (c.getD 0 Json.null))).map fmt2).getD "—" = fmt2 v
  rw [hkey]
  rfl

/-- Witness for C2: one book snapshot seeding token A at 0.52 followed by a
two-record `price_change` without asks reports the seeded value. -/
theorem claim_C2_witness :
    ∃ l, (processMsgs (([exBook] ++ [exMsgNoAsks]).map some) [] []).2 =
        [Output.line l] ∧
      l.ask_a_str = fmt2 ((parseDecimal "0.52").getD 0) ∧
      askLookup (processMsgs (([exBook] ++ [exMsgNoAsks]).map some) [] []).1 "tokA" =
        some ((parseDecimal "0.52").getD 0) :=
  claim_C2 [exBook] exMsgNoAsks [exChangeNoAskA, exChangeNoAskB] "tokA" []
    ((parseDecimal "0.52").getD 0)
    (by intro m hm; rw [List.mem_singleton] at hm; subst hm; rfl)
    rfl rfl (by decide) rfl rfl

/-- C6: the reconnect delay is the fixed 5 seconds; every session of the
supervisor loop calls `connect_and_stream` with the same token list, hence
sends the same subscription and starts from an empty ask store — so a
`price_change` with no parseable asks arriving before any book seed renders
placeholder asks. -/
theorem claim_C6 (tokens : List (String × String)) (sessions : List (List Frame))
    (fs : List Frame) (text : String) (pc : Json) (c : List Json)
    (rest : List Frame)
    (hfs : fs ∈ sessions)
    (hfr : fs = Frame.text text (some pc) :: rest)
    (hpc : (pc.get "event_type").bind Json.as_str = some "price_change")
    (hc : (pc.get "price_changes").bind Json.as_array = some c)
    (h2 : 2 ≤ c.length)
    (hw : recordWrites c = []) :
    reconnect_delay_secs = 5 ∧
    connect_and_stream tokens fs ∈ run tokens sessions ∧
    (connect_and_stream tokens fs).subscription = tokens.map Prod.fst ∧
    ∃ l outs, (connect_and_stream tokens fs).stream.outputs =
        Output.line l :: outs ∧
      l.ask_a_str = "—" ∧ l.ask_b_str = "—" ∧ l.sum_str = "—" ∧
      l.arb_flag = "" := by
  refine ⟨rfl, List.mem_map_of_mem _ hfs, rfl, ?_⟩
  subst hfr
  have h2' : ¬ c.length < 2 := by omega
  have hsnd := print_price_change_snd pc tokens [] c hc h2'
  rw [hw] at hsnd
  obtain ⟨l0, hl0, ha1, ha2, ha3, ha4⟩ :
      ∃ l0, (print_price_change pc tokens []).2 = some l0 ∧
        l0.ask_a_str = "—" ∧ l0.ask_b_str = "—" ∧ l0.sum_str = "—" ∧
        l0.arb_flag = "" :=
    ⟨_, hsnd, rfl, rfl, rfl, rfl⟩
  refine ⟨l0,
    (streamLoop tokens (handle_message text (some pc) tokens []).1 rest).outputs,
    ?_, ha1, ha2, ha3, ha4⟩
  show (handle_message text (some pc) tokens []).2 ++
    (streamLoop tokens (handle_message text (some pc) tokens []).1 rest).outputs =
      Output.line l0 ::
    (streamLoop tokens (handle_message text (some pc) tokens []).1 rest).outputs
  rw [handle_message_pc text pc tokens [] hpc, hl0]
  rfl

/-- Witness for C6: a single reconnect session whose first frame is a
two-record `price_change` without parseable asks. -/
theorem claim_C6_witness :
    reconnect_delay_secs = 5 ∧
    connect_and_stream exTokens [Frame.text "" (some exMsgNoAsks)] ∈
      run exTokens [[Frame.text "" (some exMsgNoAsks)]] ∧
    (connect_and_stream exTokens [Frame.text "" (some exMsgNoAsks)]).subscription =
      exTokens.map Prod.fst ∧
    ∃ l outs,
      (connect_and_stream exTokens [Frame.text "" (some exMsgNoAsks)]).stream.outputs =
        Output.line l :: outs ∧
      l.ask_a_str = "—" ∧ l.ask_b_str = "—" ∧ l.sum_str = "—" ∧
      l.arb_flag = "" :=
  claim_C6 exTokens [[Frame.text "" (some exMsgNoAsks)]]
    [Frame.text "" (some exMsgNoAsks)] "" exMsgNoAsks
    [exChangeNoAskA, exChangeNoAskB] []
    (List.mem_singleton.mpr rfl) rfl rfl rfl (by decide) rfl
